import Mathlib

/-!
Verification development for the drift-e3-bot training-data pipeline.

Shallow embedding of the data-preparation scripts:
* `extract_backtest_data.py` — entry/exit pairing over ordered backtest trades;
* `prepare_data.py` — signal/PnL loading, windowed join, label derivation,
  prompt/target rendering, prefix train/eval split, dataset statistics;
* `evaluate_model.py` — substring-based profitability scoring.

Modelling conventions:
* Python floats are modelled as exact rationals (`ℚ`); machine timestamps
  (epoch values) as `ℤ`; database text as `String`.
* Fallible stages return `Except`; a Python `ValueError` raised during tuple
  unpacking is an `Except.error`.
* The ISO-8601 `entry_time`/`exit_time` presentation strings produced via
  `datetime.fromtimestamp` are timezone-dependent output formatting and are
  not carried in the embedded record (no claim concerns them); the raw epoch
  timestamps they are derived from are.
* `%.kf` fixed-point rendering is modelled as round-half-to-even of the exact
  rational value (CPython rounds the binary double half-to-even; the sign of a
  negative zero is not modelled).
-/

namespace DriftE3

/-- Trade side / decision enum used by the backtest extractor. -/
inductive Side where
  | LONG
  | SHORT
  | FLAT
deriving DecidableEq

/-! ### extract_backtest_data.py -/

/-- One entry of `backtest_data['trades']`: `{side, price, ts}`. -/
structure Trade where
  side : Side
  price : ℚ
  ts : ℤ
deriving DecidableEq

/-- One derived signal dictionary built in `extract_trading_signals`
(`entry_time`/`exit_time` ISO strings omitted, see module comment). -/
structure BacktestSignal where
  timestamp : ℤ
  side : Side
  entry_price : ℚ
  exit_price : ℚ
  pnl : ℚ
  hold_time : ℚ
  profitable : Bool
deriving DecidableEq

/-- PnL of an entry/exit pair, per the per-side convention in
`extract_trading_signals` (`LONG → exit − entry`, else-branch `SHORT`,
which is the only other side reaching it, `→ entry − exit`). -/
def tradePnl (entry exitT : Trade) : ℚ :=
  if entry.side = Side.LONG then exitT.price - entry.price
  else entry.price - exitT.price

/-- Builds the signal dictionary for a paired entry/exit
(`hold_time = (exit_time - entry_time) / (1000 * 60)` minutes,
`profitable = pnl > 0`). -/
def mkBacktestSignal (entry exitT : Trade) : BacktestSignal :=
  { timestamp := entry.ts
    side := entry.side
    entry_price := entry.price
    exit_price := exitT.price
    pnl := tradePnl entry exitT
    hold_time := Rat.divInt (exitT.ts - entry.ts) (1000 * 60)
    profitable := decide (0 < tradePnl entry exitT) }

/-- Loop of `extract_trading_signals`: for each index `i`, if `trades[i]` is
`LONG`/`SHORT` and `trades[i+1]` exists and is `FLAT`, emit a signal; the last
trade has no successor and emits nothing. -/
def extractTradingSignals : List Trade → List BacktestSignal
  | [] => []
  | [_] => []
  | t :: u :: rest =>
    (if (t.side = Side.LONG ∨ t.side = Side.SHORT) ∧ u.side = Side.FLAT
      then [mkBacktestSignal t u] else []) ++ extractTradingSignals (u :: rest)

/-- Specification-side restatement of the pairing rule: zip each trade with
its immediate successor and keep exactly the entry/`FLAT` pairs. Used to
compare `extractTradingSignals` against the spec's description. -/
def pairedEntryExits (trades : List Trade) : List BacktestSignal :=
  (trades.zip trades.tail).filterMap fun p =>
    if (p.1.side = Side.LONG ∨ p.1.side = Side.SHORT) ∧ p.2.side = Side.FLAT
      then some (mkBacktestSignal p.1 p.2) else none

/-! ### prepare_data.py — rows and feature parsing -/

/-- Content of a `features` column cell as stored in the database: either a
JSON object of numeric fields, or text that `json.loads` fails on (including
the empty string, which the code short-circuits). `parse_features` maps the
latter to the empty mapping. -/
inductive FeaturesJson where
  | valid (m : List (String × ℚ))
  | malformed
deriving DecidableEq

/-- Model of `TradingDataPreparer.parse_features`: parsed dictionary on
success, `{}` on empty/unparsable input. -/
def parse_features : FeaturesJson → List (String × ℚ)
  | FeaturesJson.valid m => m
  | FeaturesJson.malformed => []

/-- One row of the `signals` query (live) or of the backtest query after
column renaming: `timestamp, decision, confidence, trigger, features`. -/
structure SignalRow where
  timestamp : ℤ
  decision : String
  confidence : ℚ
  trigger : String
  features : FeaturesJson
deriving DecidableEq

/-- One row of the `pnl` query after renaming:
`ts as timestamp, symbol, pnlUsd as pnl, reason as exit_reason`. -/
structure PnlRow where
  timestamp : ℤ
  symbol : String
  pnl : ℚ
  exit_reason : String
deriving DecidableEq

/-- One row of the `backtest_signals` query in `load_backtest_data`
(`side as decision`, constant `confidence`/`trigger` columns added by the
query itself). -/
structure BacktestDbRow where
  timestamp : ℤ
  decision : String
  features : FeaturesJson
  pnl : ℚ
  profitable : Bool
  hold_time : ℚ
deriving DecidableEq

/-- Literal `'backtest' as trigger` of the backtest query. -/
def btTrigger : String := "backtest"

/-- Literal symbol of the synthetic backtest PnL records. -/
def solSymbol : String := "SOL-PERP"

/-- Shape of the backtest row once concatenated to the signals frame:
`confidence` is the query's literal `1.0`, `trigger` the literal string. -/
def backtestToSignalRow (r : BacktestDbRow) : SignalRow :=
  { timestamp := r.timestamp
    decision := r.decision
    confidence := 1
    trigger := btTrigger
    features := r.features }

/-- Synthetic PnL record built from a backtest row in `run`
(`{'timestamp': ts, 'symbol': 'SOL-PERP', 'pnl': pnl, 'exit_reason': 'backtest'}`). -/
def backtestToPnlRow (r : BacktestDbRow) : PnlRow :=
  { timestamp := r.timestamp
    symbol := solSymbol
    pnl := r.pnl
    exit_reason := btTrigger }

/-! ### prepare_data.py — windowed join and labels -/

/-- Raw-unit length of `pd.Timedelta(hours=1)`. The code compares
`pd.to_datetime(raw_integer)` values: pandas interprets a raw integer as
NANOseconds since epoch, so adding one hour moves the bound by
3 600 000 000 000 raw units even though the stored timestamps are epoch
milliseconds. -/
def HOUR_UNITS : ℤ := 3600000000000

/-- Join condition of `create_training_examples`: the PnL row's converted
timestamp lies in `[signal_time, signal_time + Timedelta(hours=1)]`, both
bounds inclusive. Since `pd.to_datetime` is strictly monotone on integers,
this is `signalTs ≤ pnlTs ∧ pnlTs ≤ signalTs + HOUR_UNITS` on raw values. -/
def inWindow (signalTs pnlTs : ℤ) : Bool :=
  decide (signalTs ≤ pnlTs) && decide (pnlTs ≤ signalTs + HOUR_UNITS)

/-- Claim-side window: the spec's attribution window `[ts, ts + 3600000]`
(one hour in epoch milliseconds), both bounds inclusive. Stated from the
spec's words for comparison against `inWindow`. -/
def specWindow (signalTs pnlTs : ℤ) : Bool :=
  decide (signalTs ≤ pnlTs) && decide (pnlTs ≤ signalTs + 3600000)

/-- Filter `pnl_df[(to_datetime(ts) >= signal_time) & (to_datetime(ts) <= signal_time + 1h)]`,
preserving row order. -/
def pnlWindow (s : SignalRow) (pnl : List PnlRow) : List PnlRow :=
  pnl.filter fun p => inWindow s.timestamp p.timestamp

/-- Labels dictionary of a training example. `hold_time` is
`len(pnl_window) * 60`, a natural number. -/
structure Labels where
  profitable : Bool
  pnl : ℚ
  hold_time : ℕ
  exit_reason : String
deriving DecidableEq

/-- Literal `exit_reason` used when the window is empty. -/
def noTradeReason : String := "no_trade"

/-- Sum of the `pnl` column of the matched window (`pnl_window['pnl'].sum()`). -/
def pnlSum (w : List PnlRow) : ℚ :=
  (w.map fun r => r.pnl).sum

/-- Exit reason of the last row of the window (`pnl_window.iloc[-1]['exit_reason']`). -/
def lastExitReason (p : PnlRow) : List PnlRow → String
  | [] => p.exit_reason
  | q :: qs => lastExitReason q qs

/-- Label derivation of `create_training_examples`: defaults
`(False, 0.0, 0, "no_trade")` stand when the window is empty; otherwise
`pnl = sum`, `profitable = sum > 0`, `exit_reason` of the last row,
`hold_time = count × 60`. -/
def deriveLabels : List PnlRow → Labels
  | [] => { profitable := false, pnl := 0, hold_time := 0, exit_reason := noTradeReason }
  | p :: ps =>
    { profitable := decide (0 < pnlSum (p :: ps))
      pnl := pnlSum (p :: ps)
      hold_time := (p :: ps).length * 60
      exit_reason := lastExitReason p ps }

/-- The fixed ten-key feature mapping of an example (`features.get(k, 0)`). -/
structure InputFeatures where
  price : ℚ
  volume : ℚ
  volatility : ℚ
  bodyOverAtr : ℚ
  volumeZ : ℚ
  spreadBps : ℚ
  premiumPct : ℚ
  realizedVol : ℚ
  openInterest : ℚ
  fundingRate : ℚ
deriving DecidableEq

/-- Dictionary lookup with default 0, as in `features.get('price', 0)`. -/
def featGet (m : List (String × ℚ)) (k : String) : ℚ :=
  ((m.find? fun p => p.1 == k).map Prod.snd).getD 0

/-- Key strings of the ten extracted features. -/
def keyPrice : String := "price"

def keyVolume : String := "volume"

def keyVolatility : String := "volatility"

def keyBodyOverAtr : String := "bodyOverAtr"

def keyVolumeZ : String := "volumeZ"

def keySpreadBps : String := "spreadBps"

def keyPremiumPct : String := "premiumPct"

def keyRealizedVol : String := "realizedVol"

def keyOpenInterest : String := "openInterest"

def keyFundingRate : String := "fundingRate"

/-- A structured training example before text formatting. -/
structure TrainingExample where
  timestamp : ℤ
  input_features : InputFeatures
  ai_decision : String
  ai_confidence : ℚ
  e3_trigger : String
  labels : Labels
deriving DecidableEq

/-- Example assembled for one signal row in `create_training_examples`. -/
def buildExample (s : SignalRow) (pnl : List PnlRow) : TrainingExample :=
  let f := parse_features s.features
  { timestamp := s.timestamp
    input_features :=
      { price := featGet f keyPrice
        volume := featGet f keyVolume
        volatility := featGet f keyVolatility
        bodyOverAtr := featGet f keyBodyOverAtr
        volumeZ := featGet f keyVolumeZ
        spreadBps := featGet f keySpreadBps
        premiumPct := featGet f keyPremiumPct
        realizedVol := featGet f keyRealizedVol
        openInterest := featGet f keyOpenInterest
        fundingRate := featGet f keyFundingRate }
    ai_decision := s.decision
    ai_confidence := s.confidence
    e3_trigger := s.trigger
    labels := deriveLabels (pnlWindow s pnl) }

/-- Loop of `create_training_examples`: signals whose parsed feature mapping
is empty are skipped (`if not features: continue`); every other signal yields
exactly one example, in signal-row order. -/
def create_training_examples (sigs : List SignalRow) (pnl : List PnlRow) : List TrainingExample :=
  sigs.filterMap fun s =>
    if parse_features s.features = [] then none else some (buildExample s pnl)

/-! ### Number rendering (Python `str` / `%.kf`) -/

/-- Character constants used by the renderers. -/
def zeroChar : Char := '0'

def dotChar : Char := '.'

def minusChar : Char := '-'

/-- Decimal digit accumulator: repeatedly divides by 10, pushing digit
characters. The first argument is fuel (`n` itself suffices). -/
def natCharsAux : ℕ → ℕ → List Char → List Char
  | 0, _, acc => acc
  | fuel + 1, n, acc =>
    if n = 0 then acc else natCharsAux fuel (n / 10) (Nat.digitChar (n % 10) :: acc)

/-- Decimal rendering of a natural number, as `str` produces it. -/
def natChars (n : ℕ) : List Char :=
  if n = 0 then [zeroChar] else natCharsAux n n []

/-- Left-pads a digit string with zeros to width `k` (fractional part of a
fixed-point rendering). -/
def padZeros (k : ℕ) (ds : List Char) : List Char :=
  List.replicate (k - ds.length) zeroChar ++ ds

/-- Rounds `num / den` (with `den > 0` in all uses) to the nearest integer,
ties to even — the rounding Python's fixed-point formatting applies. -/
def roundHalfEven (num : ℤ) (den : ℕ) : ℤ :=
  let f := num / (den : ℤ)
  let r := num % (den : ℤ)
  if 2 * r < (den : ℤ) then f
  else if (den : ℤ) < 2 * r then f + 1
  else if f % 2 = 0 then f else f + 1

/-- Scaled value of `q` at `k` decimal places, rounded half-to-even. -/
def formatFixedVal (k : ℕ) (q : ℚ) : ℤ :=
  roundHalfEven (q.num * ((10 ^ k : ℕ) : ℤ)) q.den

/-- Python `f"{q:.kf}"` on the exact rational value: scale by `10^k`, round
half-to-even, then render sign, integer part, point, zero-padded fraction. -/
def formatFixedChars (k : ℕ) (q : ℚ) : List Char :=
  (if formatFixedVal k q < 0 then [minusChar] else []) ++
    natChars ((formatFixedVal k q).natAbs / 10 ^ k) ++
    (if k = 0 then [] else dotChar :: padZeros k (natChars ((formatFixedVal k q).natAbs % 10 ^ k)))

/-- Python `abs` on a float, modelled on the exact rational. -/
def pyAbs (q : ℚ) : ℚ :=
  if q < 0 then -q else q

/-! ### prepare_data.py — prompt formatting -/

/-- Literal renderings of Python booleans. -/
def trueStr : String := "True"

def falseStr : String := "False"

/-- Python `str` of a bool, as interpolated by the f-string. -/
def boolStr : Bool → String
  | true => trueStr
  | false => falseStr

/-- Literal segments of the instruction template in `format_for_training`,
in order of appearance. -/
def iSeg1 : String := "Analyze this trading signal:\nPrice: $"

def iSeg2 : String := "\nVolume Z-Score: "

def iSeg3 : String := "\nBody/ATR Ratio: "

def iSeg4 : String := "\nSpread: "

def iSeg5 : String := " bps\nRealized Vol: "

def iSeg6 : String := "%\nFunding Rate: "

def iSeg7 : String := "%\n\nAI Decision: "

def iSeg8 : String := "\nAI Confidence: "

def iSeg9 : String := "\nE3 Trigger: "

def iSeg10 : String := "\n\nBased on these market conditions, predict the trade outcome:"

/-- Instruction prompt of `format_for_training` (ten feature/decision fields
with the template's fixed precisions: prices and z-scores `.2f`, body/ATR
`.3f`, spread `.1f`, funding rate `.4f`). -/
def renderInstructionChars (e : TrainingExample) : List Char :=
  iSeg1.data ++ formatFixedChars 2 e.input_features.price ++
    (iSeg2.data ++ formatFixedChars 2 e.input_features.volumeZ ++
      (iSeg3.data ++ formatFixedChars 3 e.input_features.bodyOverAtr ++
        (iSeg4.data ++ formatFixedChars 1 e.input_features.spreadBps ++
          (iSeg5.data ++ formatFixedChars 2 e.input_features.realizedVol ++
            (iSeg6.data ++ formatFixedChars 4 e.input_features.fundingRate ++
              (iSeg7.data ++ e.ai_decision.data ++
                (iSeg8.data ++ formatFixedChars 2 e.ai_confidence ++
                  (iSeg9.data ++ e.e3_trigger.data ++ iSeg10.data))))))))

/-- Literal segments of the target template in `format_for_training`. -/
def tSeg1 : String := "Trade Analysis:\nProfitable: "

def tSeg2 : String := "\nExpected PnL: $"

def tSeg3 : String := "\nOptimal Hold Time: "

def tSeg4 : String := " minutes\nExit Strategy: "

def tSeg5 : String := "\nMarket Regime: "

def trendingStr : String := "trending"

def rangingStr : String := "ranging"

/-- Market-regime suffix: `'trending' if abs(pnl) > 1 else 'ranging'`. -/
def regimeChars (pnl : ℚ) : List Char :=
  tSeg5.data ++ (if 1 < pyAbs pnl then trendingStr.data else rangingStr.data)

/-- Target response of `format_for_training`:
`Profitable: {bool}`, `Expected PnL: ${pnl:.2f}`,
`Optimal Hold Time: {hold_time} minutes`, `Exit Strategy: {exit_reason}`,
`Market Regime: {trending|ranging}`. -/
def renderTargetChars (l : Labels) : List Char :=
  ((tSeg1.data ++ (boolStr l.profitable).data) ++ tSeg2.data) ++
    (formatFixedChars 2 l.pnl ++
      (tSeg3.data ++
        (natChars l.hold_time ++
          (tSeg4.data ++ (l.exit_reason.data ++ regimeChars l.pnl)))))

/-- Target response as a string. -/
def renderTarget (l : Labels) : String :=
  ⟨renderTargetChars l⟩

/-- Instruction prompt as a string. -/
def renderInstruction (e : TrainingExample) : String :=
  ⟨renderInstructionChars e⟩

/-- One persisted formatted example `{instruction, output, input: ""}`. -/
structure FormattedExample where
  instruction : String
  output : String
  input : String
deriving DecidableEq

/-- Literal `""` of the `input` field. -/
def emptyStr : String := ""

/-- Loop of `format_for_training`: renders every example. -/
def format_for_training (examples : List TrainingExample) : List FormattedExample :=
  examples.map fun e =>
    { instruction := renderInstruction e
      output := renderTarget e.labels
      input := emptyStr }

/-! ### Substring search (Python `in` on strings) -/

/-- Tests whether `n` is an initial segment of `h`. -/
def startsWith : List Char → List Char → Bool
  | [], _ => true
  | _ :: _, [] => false
  | a :: as, b :: bs => a == b && startsWith as bs

/-- Python substring test `n in h`, on character lists. -/
def containsSub (n : List Char) : List Char → Bool
  | [] => n.isEmpty
  | c :: rest => startsWith n (c :: rest) || containsSub n rest

/-- Python substring test on strings. -/
def strContains (n h : String) : Bool :=
  containsSub n.data h.data

/-- The literal `"Profitable: True"` both the statistics and the evaluator
search for. -/
def needleTrue : String := "Profitable: True"

/-- The literal `"Profitable: False"` the statistics search for. -/
def needleFalse : String := "Profitable: False"

/-- Profitability-extraction rule shared by the evaluator and statistics:
substring search for `"Profitable: True"`. -/
def extractProfitable (s : String) : Bool :=
  strContains needleTrue s

/-! ### prepare_data.py — split, statistics, run -/

/-- Summary written to `dataset_stats.json` (`created_at` wall-clock field
omitted). -/
structure DatasetStats where
  total_examples : ℕ
  train_examples : ℕ
  eval_examples : ℕ
  profitable_trades : ℕ
  unprofitable_trades : ℕ
deriving DecidableEq

/-- Model of `save_training_data`: prefix split at
`int(len(examples) * train_split)` (truncation equals the floor for the
nonnegative products arising from a split fraction in `(0,1)`; `toNat`
mirrors Python slice clamping below zero), plus the substring-count
statistics. -/
def save_training_data (f : ℚ) (exs : List FormattedExample) :
    List FormattedExample × List FormattedExample × DatasetStats :=
  let trainSize := (⌊(exs.length : ℚ) * f⌋).toNat
  let train := exs.take trainSize
  let evalExs := exs.drop trainSize
  (train, evalExs,
    { total_examples := exs.length
      train_examples := train.length
      eval_examples := evalExs.length
      profitable_trades := exs.countP fun ex => strContains needleTrue ex.output
      unprofitable_trades := exs.countP fun ex => strContains needleFalse ex.output })

/-! ### prepare_data.py — combining sources and the run pipeline -/

/-- Timestamp-ascending comparison used by `sort_values('timestamp')`. -/
instance : DecidableRel fun a b : SignalRow => a.timestamp ≤ b.timestamp :=
  fun _ _ => Int.decLe _ _

instance : DecidableRel fun a b : PnlRow => a.timestamp ≤ b.timestamp :=
  fun _ _ => Int.decLe _ _

/-- Sort of the combined signals frame by timestamp ascending. Pandas'
default quicksort fixes no tie order; we model a deterministic (stable)
sort — every theorem below that depends on sorting uses only that the
result is a timestamp-sorted permutation of the input. -/
def sortSignals (l : List SignalRow) : List SignalRow :=
  List.insertionSort (fun a b => a.timestamp ≤ b.timestamp) l

/-- Sort of the combined PnL frame by timestamp ascending. -/
def sortPnl (l : List PnlRow) : List PnlRow :=
  List.insertionSort (fun a b => a.timestamp ≤ b.timestamp) l

/-- Combining step of `run`: when backtest rows exist, coerce timestamps to
numeric (already `ℤ` here), concatenate the signal-origin and PnL-origin
collections independently, and sort each by timestamp. -/
def combineData (liveSigs : List SignalRow) (livePnl : List PnlRow)
    (backtest : List BacktestDbRow) : List SignalRow × List PnlRow :=
  if backtest.isEmpty then (liveSigs, livePnl)
  else
    (sortSignals (liveSigs ++ backtest.map backtestToSignalRow),
      sortPnl (livePnl ++ backtest.map backtestToPnlRow))

/-- Examples produced by the Example Builder after the combining step, with
the two sources concatenated in the given order. -/
def combinedExamples (sigsA sigsB : List SignalRow) (pnlA pnlB : List PnlRow) :
    List TrainingExample :=
  create_training_examples (sortSignals (sigsA ++ sigsB)) (sortPnl (pnlA ++ pnlB))

/-- Environment of one `prepare_data.py` run: whether the live database file
exists, whether its queries raise, its contents, and the backtest rows
(empty when `var/backtest_training_data.db` is absent or unreadable). -/
structure PrepEnv where
  dbExists : Bool
  liveQueryFails : Bool
  liveSignals : List SignalRow
  livePnl : List PnlRow
  backtestRows : List BacktestDbRow

/-- Python value returned by `load_trading_data`: the missing-file branch
returns a single (empty) `pd.DataFrame()`, the other branches a 2-tuple. -/
inductive LoadTradingResult where
  | singleEmptyFrame
  | pair (sigs : List SignalRow) (pnl : List PnlRow)

/-- Model of `TradingDataPreparer.load_trading_data`. -/
def load_trading_data (env : PrepEnv) : LoadTradingResult :=
  if env.dbExists = false then LoadTradingResult.singleEmptyFrame
  else if env.liveQueryFails then LoadTradingResult.pair [] []
  else LoadTradingResult.pair env.liveSignals env.livePnl

/-- Message of the `ValueError` raised when a 0-column `DataFrame` is
iterated by 2-variable tuple unpacking. -/
def unpackErrMsg : String := "ValueError: not enough values to unpack (expected 2, got 0)"

/-- Python semantics of `signals_df, pnl_df = self.load_trading_data()`:
a 2-tuple unpacks; iterating an empty `DataFrame` yields its zero column
names, so unpacking raises `ValueError`. -/
def unpackTwo : LoadTradingResult → Except String (List SignalRow × List PnlRow)
  | LoadTradingResult.singleEmptyFrame => Except.error unpackErrMsg
  | LoadTradingResult.pair s p => Except.ok (s, p)

/-- Model of `TradingDataPreparer.run`: load, combine, abort (`return`,
producing no output, modelled `none`) on empty signals or empty examples,
else format and save. An uncaught exception is `Except.error`. -/
def runPrepare (f : ℚ) (env : PrepEnv) :
    Except String (Option (List FormattedExample × List FormattedExample × DatasetStats)) := do
  let (sigs, pnl) ← unpackTwo (load_trading_data env)
  let (sigs, pnl) := combineData sigs pnl env.backtestRows
  if sigs.isEmpty then return none
  let examples := create_training_examples sigs pnl
  if examples.isEmpty then return none
  let formatted := format_for_training examples
  return some (save_training_data f formatted)

/-! ### evaluate_model.py -/

/-- Model of `DriftE3ModelEvaluator.is_prediction_correct`: compares the
profitability extracted from the prediction and from the expected output by
substring search. -/
def is_prediction_correct (prediction expected : String) : Bool :=
  extractProfitable prediction == extractProfitable expected

/-! ### Order-theoretic instances for the timestamp comparison -/

instance : IsTrans SignalRow fun a b => a.timestamp ≤ b.timestamp :=
  ⟨fun _ _ _ => Int.le_trans⟩

instance : IsTotal SignalRow fun a b => a.timestamp ≤ b.timestamp :=
  ⟨fun a b => Int.le_total a.timestamp b.timestamp⟩

instance : IsTrans PnlRow fun a b => a.timestamp ≤ b.timestamp :=
  ⟨fun _ _ _ => Int.le_trans⟩

instance : IsTotal PnlRow fun a b => a.timestamp ≤ b.timestamp :=
  ⟨fun a b => Int.le_total a.timestamp b.timestamp⟩

/-! ### Extra character constants used by the proofs -/

def nlChar : Char := '\n'

def dollarChar : Char := '$'

/-! ### Concrete inputs for the claims' witnesses and counterexamples -/

/-- A split fraction of one half. -/
def ratHalf : ℚ := Rat.divInt 1 2

/-- Example exit reason used in the spec's round-trip test. -/
def tpReason : String := "tp"

/-- The literal `"Expected PnL: $12.50"` of the spec's round-trip test. -/
def pnlLiteral1250 : String := "Expected PnL: $12.50"

/-- Labels `{profitable: True, pnl: 12.5, hold_time: 30, exit_reason: "tp"}`. -/
def tpLabels : Labels :=
  { profitable := true, pnl := Rat.divInt 25 2, hold_time := 30, exit_reason := tpReason }

/-- Labels whose free-text `exit_reason` (a database string) contains the
profitability needle while the trade is unprofitable. -/
def cexLabels : Labels :=
  { profitable := false, pnl := 0, hold_time := 0, exit_reason := needleTrue }

/-- Decision strings as stored in the live database. -/
def decLONG : String := "LONG"

def decSHORT : String := "SHORT"

/-- A live trigger string. -/
def trigLive : String := "live"

/-- Two signal rows sharing a timestamp but differing in content. -/
def cexSigA : SignalRow :=
  ⟨0, decLONG, 1, trigLive, FeaturesJson.valid [(keyPrice, 100)]⟩

def cexSigB : SignalRow :=
  ⟨0, decSHORT, 1, btTrigger, FeaturesJson.valid [(keyPrice, 200)]⟩

/-- Two signal rows with distinct timestamps. -/
def w7SigA : SignalRow :=
  ⟨0, decLONG, 1, trigLive, FeaturesJson.valid [(keyPrice, 100)]⟩

def w7SigB : SignalRow :=
  ⟨1, decSHORT, 1, btTrigger, FeaturesJson.valid [(keyPrice, 200)]⟩

/-- Backtest trades of the spec's examples. -/
def tradeLong100 : Trade := ⟨Side.LONG, 100, 0⟩

def tradeFlat110 : Trade := ⟨Side.FLAT, 110, 60000⟩

def tradeShort50 : Trade := ⟨Side.SHORT, 50, 0⟩

def tradeFlat45 : Trade := ⟨Side.FLAT, 45, 120000⟩

/-- The derived signal of `[SHORT@50@t=0, FLAT@45@t=120000]`. -/
def shortSignalExample : BacktestSignal :=
  { timestamp := 0, side := Side.SHORT, entry_price := 50, exit_price := 45,
    pnl := 5, hold_time := 2, profitable := true }

/-- A signal row with features and a PnL row strictly before its window. -/
def w8Sig : SignalRow :=
  ⟨0, decLONG, 1, trigLive, FeaturesJson.valid [(keyPrice, 7)]⟩

def w8Pnl : PnlRow := ⟨-1, solSymbol, 5, tpReason⟩

/-- Environment with the configured live database file absent. -/
def envNoDb : PrepEnv :=
  { dbExists := false, liveQueryFails := false, liveSignals := [], livePnl := [],
    backtestRows := [] }

/-- A formatted example whose output mentions no profitability at all. -/
def cexFormatted : FormattedExample :=
  { instruction := emptyStr, output := emptyStr, input := emptyStr }

/-- Three formatted examples for the split witness. -/
def demoFormatted : List FormattedExample :=
  [{ instruction := trigLive, output := tpReason, input := emptyStr },
    { instruction := decLONG, output := decSHORT, input := emptyStr },
    { instruction := btTrigger, output := solSymbol, input := emptyStr }]

/-- A generated prediction that names no profitability. -/
def unknownPred : String := "the market may move either way"

/-- A training example with clean label strings (empty window defaults). -/
def w9Example : TrainingExample := buildExample w8Sig []

/-- Expected output labels for the evaluator witness. -/
def c10Labels : Labels :=
  { profitable := false, pnl := 0, hold_time := 0, exit_reason := tpReason }

/-! ## Helper lemmas: heads, lasts, membership -/

theorem head?_some_mem {l : List Char} {c : Char} (h : l.head? = some c) : c ∈ l := by
  cases l with
  | nil => simp at h
  | cons x t =>
    simp only [List.head?_cons, Option.some.injEq] at h
    exact h ▸ List.mem_cons_self x t

theorem exists_head?_of_ne_nil {l : List Char} (h : l ≠ []) : ∃ c, l.head? = some c := by
  cases l with
  | nil => exact absurd rfl h
  | cons x t => exact ⟨x, rfl⟩

theorem getLast?_some_mem {l : List Char} {c : Char} (h : l.getLast? = some c) : c ∈ l := by
  induction l with
  | nil => simp at h
  | cons x t ih =>
    cases t with
    | nil =>
      simp only [List.getLast?_singleton, Option.some.injEq] at h
      exact h ▸ List.mem_cons_self x []
    | cons y r =>
      rw [List.getLast?_cons_cons] at h
      exact List.mem_cons_of_mem x (ih h)

theorem exists_getLast?_of_ne_nil {l : List Char} (h : l ≠ []) : ∃ c, l.getLast? = some c := by
  induction l with
  | nil => exact absurd rfl h
  | cons x t ih =>
    cases t with
    | nil => exact ⟨x, by simp⟩
    | cons y r =>
      obtain ⟨c, hc⟩ := ih (by simp)
      exact ⟨c, by rw [List.getLast?_cons_cons]; exact hc⟩

/-! ## Substring-containment theory -/

theorem startsWith_iff : ∀ n h : List Char, startsWith n h = true ↔ ∃ t, n ++ t = h
  | [], h => by simp [startsWith]
  | a :: as, [] => by simp [startsWith]
  | a :: as, b :: bs => by
    simp only [startsWith, Bool.and_eq_true, beq_iff_eq]
    constructor
    · rintro ⟨rfl, hs⟩
      obtain ⟨t, ht⟩ := (startsWith_iff as bs).mp hs
      exact ⟨t, by simp [ht]⟩
    · rintro ⟨t, ht⟩
      injection ht with h1 h2
      subst h1
      exact ⟨rfl, (startsWith_iff as bs).mpr ⟨t, h2⟩⟩

theorem containsSub_iff : ∀ (h n : List Char), containsSub n h = true ↔ ∃ u t, u ++ (n ++ t) = h
  | [], n => by
    simp only [containsSub, List.isEmpty_iff]
    constructor
    · rintro rfl
      exact ⟨[], [], rfl⟩
    · rintro ⟨u, t, ht⟩
      rcases List.append_eq_nil.mp ht with ⟨-, h2⟩
      exact (List.append_eq_nil.mp h2).1
  | c :: rest, n => by
    simp only [containsSub, Bool.or_eq_true]
    rw [startsWith_iff, containsSub_iff rest n]
    constructor
    · rintro (⟨t, ht⟩ | ⟨u, t, ht⟩)
      · exact ⟨[], t, by simpa using ht⟩
      · exact ⟨c :: u, t, by simp [ht]⟩
    · rintro ⟨u, t, ht⟩
      cases u with
      | nil => exact Or.inl ⟨t, by simpa using ht⟩
      | cons x u' =>
        injection ht with h1 h2
        exact Or.inr ⟨u', t, h2⟩

theorem containsSub_append_left {n a : List Char} (b : List Char)
    (h : containsSub n a = true) : containsSub n (a ++ b) = true := by
  obtain ⟨u, t, ht⟩ := (containsSub_iff a n).mp h
  exact (containsSub_iff (a ++ b) n).mpr ⟨u, t ++ b, by rw [← ht]; simp⟩

theorem containsSub_append_right {n b : List Char} (a : List Char)
    (h : containsSub n b = true) : containsSub n (a ++ b) = true := by
  obtain ⟨u, t, ht⟩ := (containsSub_iff b n).mp h
  exact (containsSub_iff (a ++ b) n).mpr ⟨a ++ u, t, by rw [← ht]; simp⟩

theorem containsSub_head_mem {n h : List Char} {c : Char}
    (hc : containsSub n h = true) (hn : n.head? = some c) : c ∈ h := by
  obtain ⟨u, t, ht⟩ := (containsSub_iff h n).mp hc
  have hcn : c ∈ n := head?_some_mem hn
  subst ht
  simp only [List.mem_append]
  tauto

theorem containsSub_eq_false_of_head {n h : List Char} {c : Char}
    (hn : n.head? = some c) (hc : c ∉ h) : containsSub n h = false := by
  cases hcs : containsSub n h with
  | false => rfl
  | true => exact absurd (containsSub_head_mem hcs hn) hc

theorem containsSub_eq_false_of_disjoint {n h : List Char} (hne : n ≠ [])
    (hch : ∀ c ∈ n, c ∉ h) : containsSub n h = false := by
  obtain ⟨c, hc⟩ := exists_head?_of_ne_nil hne
  exact containsSub_eq_false_of_head hc (hch c (head?_some_mem hc))

theorem containsSub_append_elim {n : List Char} (a b : List Char)
    (h : containsSub n (a ++ b) = true) :
    containsSub n a = true ∨ containsSub n b = true ∨
      ∃ k u v, 0 < k ∧ k < n.length ∧ u ++ n.take k = a ∧ n.drop k ++ v = b := by
  induction a with
  | nil => exact Or.inr (Or.inl (by simpa using h))
  | cons c a' ih =>
    rw [show (c :: a') ++ b = c :: (a' ++ b) from rfl, containsSub, Bool.or_eq_true] at h
    rcases h with hsw | hrest
    · obtain ⟨t, hnt⟩ := (startsWith_iff _ _).mp hsw
      rw [← List.cons_append] at hnt
      by_cases hlen : n.length ≤ (c :: a').length
      · left
        have h1 : (n ++ t).take n.length = n := by
          rw [List.take_append_of_le_length (le_refl _), List.take_length]
        have h2 : ((c :: a') ++ b).take n.length = (c :: a').take n.length :=
          List.take_append_of_le_length hlen
        have htake : n = (c :: a').take n.length := by
          have h3 := congrArg (List.take n.length) hnt
          rw [h1, h2] at h3
          exact h3
        have hstart : startsWith n (c :: a') = true := by
          refine (startsWith_iff _ _).mpr ⟨(c :: a').drop n.length, ?_⟩
          have h4 := List.take_append_drop n.length (c :: a')
          rw [← htake] at h4
          exact h4
        simp [containsSub, hstart]
      · right; right
        push_neg at hlen
        have hlen' : (c :: a').length ≤ n.length := le_of_lt hlen
        refine ⟨(c :: a').length, [], t, by simp, hlen, ?_, ?_⟩
        · have h1 : (n ++ t).take (c :: a').length = n.take (c :: a').length :=
            List.take_append_of_le_length hlen'
          have h2 : ((c :: a') ++ b).take (c :: a').length = c :: a' := List.take_left _ _
          have h3 := congrArg (List.take (c :: a').length) hnt
          rw [h1, h2] at h3
          simpa using h3
        · have h1 : (n ++ t).drop (c :: a').length = n.drop (c :: a').length ++ t :=
            List.drop_append_of_le_length hlen'
          have h2 : ((c :: a') ++ b).drop (c :: a').length = b := List.drop_left _ _
          have h3 := congrArg (List.drop (c :: a').length) hnt
          rw [h1, h2] at h3
          exact h3
    · rcases ih hrest with h1 | h2 | ⟨k, u, v, hk0, hkn, hu, hv⟩
      · left
        simp [containsSub, h1]
      · right; left; exact h2
      · right; right
        exact ⟨k, c :: u, v, hk0, hkn, by simp [hu], hv⟩

theorem bool_eq_of_iff {x y : Bool} (h : x = true ↔ y = true) : x = y := by
  cases x <;> cases y <;> simp_all

theorem containsSub_append_eq_of_last {n a b : List Char} {c : Char}
    (hc : a.getLast? = some c) (hcn : c ∉ n) :
    containsSub n (a ++ b) = (containsSub n a || containsSub n b) := by
  apply bool_eq_of_iff
  constructor
  · intro h
    rcases containsSub_append_elim a b h with h1 | h2 | ⟨k, u, v, hk0, hkn, hu, hv⟩
    · simp [h1]
    · simp [h2]
    · exfalso
      have htk : n.take k ≠ [] := by
        apply List.ne_nil_of_length_pos
        rw [List.length_take]
        omega
      have hlast : a.getLast? = (n.take k).getLast? := by
        rw [← hu]
        exact List.getLast?_append_of_ne_nil _ htk
      obtain ⟨d, hd⟩ := exists_getLast?_of_ne_nil htk
      have hdc : d = c := by
        rw [hlast, hd] at hc
        exact Option.some_inj.mp hc
      exact hcn (hdc ▸ List.mem_of_mem_take (getLast?_some_mem hd))
  · intro h
    rw [Bool.or_eq_true] at h
    rcases h with h1 | h1
    · exact containsSub_append_left b h1
    · exact containsSub_append_right a h1

theorem containsSub_append_eq_of_head {n a b : List Char} {c : Char}
    (hc : b.head? = some c) (hcn : c ∉ n) :
    containsSub n (a ++ b) = (containsSub n a || containsSub n b) := by
  apply bool_eq_of_iff
  constructor
  · intro h
    rcases containsSub_append_elim a b h with h1 | h2 | ⟨k, u, v, hk0, hkn, hu, hv⟩
    · simp [h1]
    · simp [h2]
    · exfalso
      have hdk : n.drop k ≠ [] := by
        apply List.ne_nil_of_length_pos
        rw [List.length_drop]
        omega
      have hhead : b.head? = (n.drop k).head? := by
        rw [← hv]
        exact List.head?_append_of_ne_nil _ hdk
      obtain ⟨d, hd⟩ := exists_head?_of_ne_nil hdk
      have hdc : d = c := by
        rw [hhead, hd] at hc
        exact Option.some_inj.mp hc
      exact hcn (hdc ▸ List.mem_of_mem_drop (head?_some_mem hd))
  · intro h
    rw [Bool.or_eq_true] at h
    rcases h with h1 | h1
    · exact containsSub_append_left b h1
    · exact containsSub_append_right a h1

theorem containsSub_append_eq_of_no_tail {n a b : List Char}
    (hnp : ∀ k, k < n.length → 0 < k → a.drop (a.length - k) ≠ n.take k) :
    containsSub n (a ++ b) = (containsSub n a || containsSub n b) := by
  apply bool_eq_of_iff
  constructor
  · intro h
    rcases containsSub_append_elim a b h with h1 | h2 | ⟨k, u, v, hk0, hkn, hu, hv⟩
    · simp [h1]
    · simp [h2]
    · exfalso
      have hklen : (n.take k).length = k := by
        rw [List.length_take]
        omega
      have hlen : a.length = u.length + k := by
        rw [← hu, List.length_append, hklen]
      have hdrop : a.drop (a.length - k) = n.take k := by
        have h1 : a.length - k = u.length := by omega
        rw [h1, ← hu, List.drop_left]
      exact hnp k hkn hk0 hdrop
  · intro h
    rw [Bool.or_eq_true] at h
    rcases h with h1 | h1
    · exact containsSub_append_left b h1
    · exact containsSub_append_right a h1

/-! ## Character-class facts about the number renderers -/

theorem digitChar_isDigit : ∀ d, d < 10 → (Nat.digitChar d).isDigit = true := by decide

theorem natCharsAux_charset :
    ∀ (fuel n : ℕ) (acc : List Char), (∀ c ∈ acc, c.isDigit = true) →
      ∀ c ∈ natCharsAux fuel n acc, c.isDigit = true := by
  intro fuel
  induction fuel with
  | zero =>
    intro n acc hacc c hc
    exact hacc c (by simpa [natCharsAux] using hc)
  | succ m ih =>
    intro n acc hacc c hc
    rw [natCharsAux] at hc
    by_cases hn : n = 0
    · rw [if_pos hn] at hc
      exact hacc c hc
    · rw [if_neg hn] at hc
      refine ih (n / 10) _ ?_ c hc
      intro d hd
      rcases List.mem_cons.mp hd with h1 | h1
      · subst h1
        exact digitChar_isDigit _ (Nat.mod_lt _ (by norm_num))
      · exact hacc d h1

theorem natChars_charset (n : ℕ) : ∀ c ∈ natChars n, c.isDigit = true := by
  intro c hc
  rw [natChars] at hc
  by_cases hn : n = 0
  · rw [if_pos hn] at hc
    simp only [List.mem_singleton] at hc
    subst hc
    decide
  · rw [if_neg hn] at hc
    exact natCharsAux_charset n n [] (by simp) c hc

theorem natCharsAux_ne_nil :
    ∀ (fuel n : ℕ) (acc : List Char), acc ≠ [] → natCharsAux fuel n acc ≠ [] := by
  intro fuel
  induction fuel with
  | zero =>
    intro n acc h
    simpa [natCharsAux] using h
  | succ m ih =>
    intro n acc h
    rw [natCharsAux]
    by_cases hn : n = 0
    · rw [if_pos hn]
      exact h
    · rw [if_neg hn]
      exact ih _ _ (by simp)

theorem natChars_ne_nil (n : ℕ) : natChars n ≠ [] := by
  rw [natChars]
  by_cases hn : n = 0
  · rw [if_pos hn]
    simp
  · rw [if_neg hn]
    cases n with
    | zero => exact absurd rfl hn
    | succ m =>
      rw [natCharsAux, if_neg hn]
      exact natCharsAux_ne_nil _ _ _ (by simp)

theorem exists_head_digit (n : ℕ) :
    ∃ c, (natChars n).head? = some c ∧ c.isDigit = true := by
  obtain ⟨c, hc⟩ := exists_head?_of_ne_nil (natChars_ne_nil n)
  exact ⟨c, hc, natChars_charset n c (head?_some_mem hc)⟩

theorem exists_getLast_digit (n : ℕ) :
    ∃ c, (natChars n).getLast? = some c ∧ c.isDigit = true := by
  obtain ⟨c, hc⟩ := exists_getLast?_of_ne_nil (natChars_ne_nil n)
  exact ⟨c, hc, natChars_charset n c (getLast?_some_mem hc)⟩

theorem formatFixedChars_charset (k : ℕ) (q : ℚ) :
    ∀ c ∈ formatFixedChars k q, (c.isDigit || (c == dotChar) || (c == minusChar)) = true := by
  intro c hc
  rw [formatFixedChars] at hc
  simp only [List.mem_append] at hc
  rcases hc with (h1 | h2) | h3
  · by_cases hs : formatFixedVal k q < 0
    · rw [if_pos hs] at h1
      simp only [List.mem_singleton] at h1
      subst h1
      simp
    · rw [if_neg hs] at h1
      simp at h1
  · simp [natChars_charset _ c h2]
  · by_cases hk : k = 0
    · rw [if_pos hk] at h3
      simp at h3
    · rw [if_neg hk] at h3
      rcases List.mem_cons.mp h3 with h4 | h4
      · subst h4
        simp
      · rw [padZeros] at h4
        rcases List.mem_append.mp h4 with h5 | h5
        · have := List.eq_of_mem_replicate h5
          subst this
          decide
        · simp [natChars_charset _ c h5]

/-! ## The extraction rule inverts the target renderer -/

theorem containsSub_renderTarget_false (n : List Char) (l : Labels)
    (hne : n ≠ [])
    (hdig : ∀ c ∈ n, c.isDigit = false)
    (hdot : dotChar ∉ n) (hminus : minusChar ∉ n)
    (hnl : nlChar ∉ n) (hdollar : dollarChar ∉ n)
    (hC1 : containsSub n ((tSeg1.data ++ (boolStr l.profitable).data) ++ tSeg2.data) = false)
    (hA3 : containsSub n tSeg3.data = false)
    (hA4 : ∀ k, k < n.length → 0 < k → tSeg4.data.drop (tSeg4.data.length - k) ≠ n.take k)
    (hA4c : containsSub n tSeg4.data = false)
    (hreg1 : containsSub n (tSeg5.data ++ trendingStr.data) = false)
    (hreg2 : containsSub n (tSeg5.data ++ rangingStr.data) = false)
    (hE : containsSub n l.exit_reason.data = false) :
    containsSub n (renderTargetChars l) = false := by
  have hP : containsSub n (formatFixedChars 2 l.pnl) = false := by
    refine containsSub_eq_false_of_disjoint hne ?_
    intro c hcn hcP
    have hch := formatFixedChars_charset 2 l.pnl c hcP
    have hd := hdig c hcn
    rw [hd] at hch
    simp only [Bool.false_or, Bool.or_eq_true, beq_iff_eq] at hch
    rcases hch with h | h
    · exact hdot (h ▸ hcn)
    · exact hminus (h ▸ hcn)
  have hH : containsSub n (natChars l.hold_time) = false := by
    refine containsSub_eq_false_of_disjoint hne ?_
    intro c hcn hcH
    have := natChars_charset _ c hcH
    rw [hdig c hcn] at this
    exact Bool.false_ne_true this
  have hreg : containsSub n (regimeChars l.pnl) = false := by
    rw [regimeChars]
    by_cases habs : 1 < pyAbs l.pnl
    · rw [if_pos habs]
      exact hreg1
    · rw [if_neg habs]
      exact hreg2
  have hRegHead : (regimeChars l.pnl).head? = some nlChar := by
    rw [regimeChars, List.head?_append_of_ne_nil _ (by decide : tSeg5.data ≠ [])]
    decide
  have hRest5 : containsSub n (l.exit_reason.data ++ regimeChars l.pnl) = false := by
    rw [containsSub_append_eq_of_head hRegHead hnl, hE, hreg]
    rfl
  have hRest4 :
      containsSub n (tSeg4.data ++ (l.exit_reason.data ++ regimeChars l.pnl)) = false := by
    rw [containsSub_append_eq_of_no_tail hA4, hA4c, hRest5]
    rfl
  obtain ⟨cL, hcL, hcLd⟩ := exists_getLast_digit l.hold_time
  have hcLn : cL ∉ n := fun hmem => by
    rw [hdig cL hmem] at hcLd
    exact Bool.false_ne_true hcLd
  have hRest3 :
      containsSub n (natChars l.hold_time ++
        (tSeg4.data ++ (l.exit_reason.data ++ regimeChars l.pnl))) = false := by
    rw [containsSub_append_eq_of_last hcL hcLn, hH, hRest4]
    rfl
  obtain ⟨cH, hcH, hcHd⟩ := exists_head_digit l.hold_time
  have hcHn : cH ∉ n := fun hmem => by
    rw [hdig cH hmem] at hcHd
    exact Bool.false_ne_true hcHd
  have hR3Head :
      (natChars l.hold_time ++
        (tSeg4.data ++ (l.exit_reason.data ++ regimeChars l.pnl))).head? = some cH := by
    rw [List.head?_append_of_ne_nil _ (natChars_ne_nil _)]
    exact hcH
  have hRest2b :
      containsSub n (tSeg3.data ++
        (natChars l.hold_time ++
          (tSeg4.data ++ (l.exit_reason.data ++ regimeChars l.pnl)))) = false := by
    rw [containsSub_append_eq_of_head hR3Head hcHn, hA3, hRest3]
    rfl
  have hR2Head :
      (tSeg3.data ++
        (natChars l.hold_time ++
          (tSeg4.data ++ (l.exit_reason.data ++ regimeChars l.pnl)))).head? = some nlChar := by
    rw [List.head?_append_of_ne_nil _ (by decide : tSeg3.data ≠ [])]
    decide
  have hRest2 :
      containsSub n (formatFixedChars 2 l.pnl ++
        (tSeg3.data ++
          (natChars l.hold_time ++
            (tSeg4.data ++ (l.exit_reason.data ++ regimeChars l.pnl))))) = false := by
    rw [containsSub_append_eq_of_head hR2Head hnl, hP, hRest2b]
    rfl
  have hHeadLast :
      ((tSeg1.data ++ (boolStr l.profitable).data) ++ tSeg2.data).getLast? = some dollarChar := by
    rw [List.getLast?_append_of_ne_nil _ (by decide : tSeg2.data ≠ [])]
    decide
  rw [renderTargetChars, containsSub_append_eq_of_last hHeadLast hdollar, hC1, hRest2]
  rfl

theorem extractTrue_eq (l : Labels)
    (hclean : containsSub needleTrue.data l.exit_reason.data = false) :
    containsSub needleTrue.data (renderTargetChars l) = l.profitable := by
  cases hb : l.profitable with
  | true =>
    rw [renderTargetChars, hb]
    apply containsSub_append_left
    decide
  | false =>
    rw [containsSub_renderTarget_false needleTrue.data l (by decide) (by decide) (by decide)
      (by decide) (by decide) (by decide) (by rw [hb]; decide) (by decide) (by decide)
      (by decide) (by decide) (by decide) hclean]

theorem extractFalse_eq (l : Labels)
    (hclean : containsSub needleFalse.data l.exit_reason.data = false) :
    containsSub needleFalse.data (renderTargetChars l) = !l.profitable := by
  cases hb : l.profitable with
  | false =>
    rw [renderTargetChars, hb]
    apply containsSub_append_left
    decide
  | true =>
    rw [containsSub_renderTarget_false needleFalse.data l (by decide) (by decide) (by decide)
      (by decide) (by decide) (by decide) (by rw [hb]; decide) (by decide) (by decide)
      (by decide) (by decide) (by decide) hclean]
    rfl

/-! ## Sorting: a timestamp-sorted permutation with distinct keys is unique -/

theorem sorted_key_perm_eq {α : Type} (key : α → ℤ) :
    ∀ l₁ l₂ : List α, l₁.Perm l₂ →
      List.Sorted (fun a b => key a ≤ key b) l₁ →
      List.Sorted (fun a b => key a ≤ key b) l₂ →
      (l₁.map key).Nodup → l₁ = l₂ := by
  intro l₁
  induction l₁ with
  | nil =>
    intro l₂ hp _ _ _
    cases l₂ with
    | nil => rfl
    | cons b t₂ =>
      have := hp.length_eq
      simp at this
  | cons a t ih =>
    intro l₂ hp hs1 hs2 hnd
    cases l₂ with
    | nil =>
      have := hp.length_eq
      simp at this
    | cons b t₂ =>
      have hnd' : (∀ x ∈ t, ¬key x = key a) ∧ (t.map key).Nodup := by simpa using hnd
      have hab : b = a := by
        have hainb : a ∈ b :: t₂ := hp.mem_iff.mp (List.mem_cons_self a t)
        have hbina : b ∈ a :: t := hp.mem_iff.mpr (List.mem_cons_self b t₂)
        have h1 : key a ≤ key b := by
          rcases List.mem_cons.mp hbina with h | h
          · rw [h]
          · exact (List.sorted_cons.mp hs1).1 b h
        have h2 : key b ≤ key a := by
          rcases List.mem_cons.mp hainb with h | h
          · rw [h]
          · exact (List.sorted_cons.mp hs2).1 a h
        rcases List.mem_cons.mp hbina with h | h
        · exact h
        · exfalso
          have hmem : key a ∈ t.map key := by
            have : key b ∈ t.map key := List.mem_map_of_mem key h
            rwa [le_antisymm h1 h2]
          obtain ⟨x, hx, he⟩ := List.mem_map.mp hmem
          exact hnd'.1 x hx he
      subst hab
      have ht : t.Perm t₂ := hp.cons_inv
      rw [ih t₂ ht (List.sorted_cons.mp hs1).2 (List.sorted_cons.mp hs2).2 hnd'.2]

theorem sortSignals_perm (l : List SignalRow) : (sortSignals l).Perm l :=
  List.perm_insertionSort _ l

theorem sortSignals_sorted (l : List SignalRow) :
    List.Sorted (fun a b : SignalRow => a.timestamp ≤ b.timestamp) (sortSignals l) :=
  List.sorted_insertionSort _ l

theorem sortPnl_perm (l : List PnlRow) : (sortPnl l).Perm l :=
  List.perm_insertionSort _ l

theorem sortPnl_sorted (l : List PnlRow) :
    List.Sorted (fun a b : PnlRow => a.timestamp ≤ b.timestamp) (sortPnl l) :=
  List.sorted_insertionSort _ l

theorem sortSignals_append_comm (a b : List SignalRow)
    (h : ((a ++ b).map fun s => s.timestamp).Nodup) :
    sortSignals (a ++ b) = sortSignals (b ++ a) := by
  refine sorted_key_perm_eq (fun s : SignalRow => s.timestamp) _ _
    ((sortSignals_perm (a ++ b)).trans
      (List.perm_append_comm.trans (sortSignals_perm (b ++ a)).symm))
    (sortSignals_sorted _) (sortSignals_sorted _) ?_
  exact (((sortSignals_perm (a ++ b)).map fun s : SignalRow => s.timestamp).nodup_iff).mpr h

theorem sortPnl_append_comm (a b : List PnlRow)
    (h : ((a ++ b).map fun p => p.timestamp).Nodup) :
    sortPnl (a ++ b) = sortPnl (b ++ a) := by
  refine sorted_key_perm_eq (fun p : PnlRow => p.timestamp) _ _
    ((sortPnl_perm (a ++ b)).trans
      (List.perm_append_comm.trans (sortPnl_perm (b ++ a)).symm))
    (sortPnl_sorted _) (sortPnl_sorted _) ?_
  exact (((sortPnl_perm (a ++ b)).map fun p : PnlRow => p.timestamp).nodup_iff).mpr h

/-! ## The extractor loop equals the consecutive-pair characterization -/

theorem extract_eq_paired :
    ∀ trades, extractTradingSignals trades = pairedEntryExits trades := by
  intro trades
  induction trades with
  | nil => rfl
  | cons t rest ih =>
    cases rest with
    | nil => rfl
    | cons u rest' =>
      show (if _ then _ else _) ++ extractTradingSignals (u :: rest') = _
      rw [ih]
      show _ = ((t :: u :: rest').zip (u :: rest')).filterMap _
      rw [List.zip_cons_cons, List.filterMap_cons]
      by_cases hc : (t.side = Side.LONG ∨ t.side = Side.SHORT) ∧ u.side = Side.FLAT
      · rw [if_pos hc]
        simp only [hc, and_self, if_pos]
        rfl
      · rw [if_neg hc]
        simp only [if_neg hc]
        rfl

/-! ## Claim C1 -/

/-- C1: the Example Builder's join does NOT implement the claimed inclusive
window `[signal_ts, signal_ts + 3600000]` over epoch-millisecond timestamps.
Because pandas interprets the raw integers as nanoseconds, the code matches a
PnL row at `signal_ts + 3600001` (which the claim says must never match): its
effective raw-unit bound is `signal_ts + 3600000000000`. -/
theorem c1_window_unit_mismatch :
    inWindow 0 3600001 = true ∧ specWindow 0 3600001 = false ∧
      inWindow 0 3600000000000 = true ∧ inWindow 0 3600000000001 = false := by
  decide

/-! ## Claim C2 -/

/-- C2: when the configured live database file does not exist, the pipeline
does not abort cleanly — `load_trading_data` returns a single empty
`DataFrame` (not a signals/PnL pair), and `run`'s 2-variable tuple unpacking
of that value raises `ValueError`, so `runPrepare` ends in `Except.error`
before any emptiness check runs. -/
theorem c2_missing_db_crash :
    ∀ (f : ℚ) (env : PrepEnv), env.dbExists = false →
      runPrepare f env = Except.error unpackErrMsg := by
  intro f env h
  have h1 : load_trading_data env = LoadTradingResult.singleEmptyFrame := by
    rw [load_trading_data, if_pos h]
  simp only [runPrepare, h1]
  rfl

/-- Witness for C2 at a concrete environment with the database file absent. -/
theorem c2_witness :
    envNoDb.dbExists = false ∧ runPrepare ratHalf envNoDb = Except.error unpackErrMsg :=
  ⟨rfl, c2_missing_db_crash ratHalf envNoDb rfl⟩

/-! ## Claim C3 -/

/-- C3 counterexample: the claim's general round-trip fails as stated. An
example whose database-sourced `exit_reason` contains the literal
`"Profitable: True"` renders, while unprofitable, to a target from which the
extraction rule recovers `True` — not the example's `profitable` label. -/
theorem c3_roundtrip_counter :
    extractProfitable (renderTarget cexLabels) = true ∧ cexLabels.profitable = false :=
  ⟨by decide, rfl⟩

/-- C3 (amended): rendering the labels
`{profitable: True, pnl: 12.5, hold_time: 30, exit_reason: "tp"}` yields a
target containing the literal substrings `"Profitable: True"` and
`"Expected PnL: $12.50"`, and the extraction rule recovers `True` from it;
and for every example whose `exit_reason` does not itself contain
`"Profitable: True"`, extraction applied to the rendered target recovers the
example's `profitable` label. -/
theorem c3_roundtrip_amended :
    (strContains needleTrue (renderTarget tpLabels) = true ∧
      strContains pnlLiteral1250 (renderTarget tpLabels) = true ∧
      extractProfitable (renderTarget tpLabels) = true) ∧
    ∀ l : Labels, strContains needleTrue l.exit_reason = false →
      extractProfitable (renderTarget l) = l.profitable := by
  refine ⟨⟨by decide, by decide, by decide⟩, ?_⟩
  intro l h
  exact extractTrue_eq l h

/-- Witness for C3 at the spec's concrete labels. -/
theorem c3_witness :
    strContains needleTrue tpLabels.exit_reason = false ∧
      extractProfitable (renderTarget tpLabels) = tpLabels.profitable :=
  ⟨by decide, c3_roundtrip_amended.2 tpLabels (by decide)⟩

/-! ## Claim C4 -/

/-- C4: the Splitter/Writer performs an exact prefix split: the training set
is the first `⌊n·f⌋` examples, the evaluation set is the remaining
`n − ⌊n·f⌋`, and their concatenation is the original sequence — no
reordering, duplication, or loss. -/
theorem c4_prefix_split :
    ∀ (f : ℚ) (exs : List FormattedExample), 0 < f → f < 1 →
      (save_training_data f exs).1 = exs.take (⌊(exs.length : ℚ) * f⌋).toNat ∧
      (save_training_data f exs).2.1 = exs.drop (⌊(exs.length : ℚ) * f⌋).toNat ∧
      (save_training_data f exs).1.length = (⌊(exs.length : ℚ) * f⌋).toNat ∧
      (save_training_data f exs).2.1.length = exs.length - (⌊(exs.length : ℚ) * f⌋).toNat ∧
      (save_training_data f exs).1 ++ (save_training_data f exs).2.1 = exs := by
  intro f exs h0 h1
  have hle : (⌊(exs.length : ℚ) * f⌋).toNat ≤ exs.length := by
    have h2 : (exs.length : ℚ) * f ≤ (exs.length : ℚ) :=
      mul_le_of_le_one_right (by positivity) (le_of_lt h1)
    have h3 : ⌊(exs.length : ℚ) * f⌋ ≤ ⌊(exs.length : ℚ)⌋ := Int.floor_le_floor h2
    rw [Int.floor_natCast] at h3
    calc (⌊(exs.length : ℚ) * f⌋).toNat ≤ ((exs.length : ℤ)).toNat := Int.toNat_le_toNat h3
      _ = exs.length := Int.toNat_natCast _
  refine ⟨rfl, rfl, ?_, ?_, List.take_append_drop _ _⟩
  · show (exs.take _).length = _
    rw [List.length_take]
    omega
  · show (exs.drop _).length = _
    rw [List.length_drop]

attribute [local semireducible] Rat.add Rat.mul Rat.sub in
/-- Witness for C4 at `f = 1/2` over three examples. -/
theorem c4_witness :
    ((0 : ℚ) < ratHalf ∧ ratHalf < 1) ∧
      (save_training_data ratHalf demoFormatted).1 ++
        (save_training_data ratHalf demoFormatted).2.1 = demoFormatted :=
  ⟨⟨by decide, by decide⟩,
    (c4_prefix_split ratHalf demoFormatted (by decide) (by decide)).2.2.2.2⟩

/-! ## Claim C5 -/

attribute [local semireducible] Rat.add Rat.mul Rat.sub in
/-- C5: the Backtest Signal Extractor emits a derived signal for an entry
trade exactly when its immediate successor is `FLAT` (the zip-with-successor
characterization), and in particular `[LONG@100]` yields no signal while
`[LONG@100, FLAT@110]` yields exactly one. -/
theorem c5_entry_exit_pairing :
    (∀ trades, extractTradingSignals trades = pairedEntryExits trades) ∧
      extractTradingSignals [tradeLong100] = [] ∧
      (extractTradingSignals [tradeLong100, tradeFlat110]).length = 1 :=
  ⟨extract_eq_paired, by decide, by decide⟩

/-! ## Claim C6 -/

attribute [local semireducible] Rat.add Rat.mul Rat.sub in
/-- C6: every signal emitted by the Backtest Signal Extractor satisfies the
per-side PnL convention (`LONG → exit − entry`, `SHORT → entry − exit`) and
`profitable = pnl > 0`; hold time is `(exit_ts − entry_ts) / 60000` minutes;
and `[SHORT@50@t=0, FLAT@45@t=120000]` yields pnl 5, hold time 2.0 minutes,
profitable `True`. -/
theorem c6_pnl_convention :
    (∀ (trades : List Trade) (s : BacktestSignal), s ∈ extractTradingSignals trades →
      (s.side = Side.LONG ∨ s.side = Side.SHORT) ∧
      s.pnl = (if s.side = Side.LONG then s.exit_price - s.entry_price
        else s.entry_price - s.exit_price) ∧
      s.profitable = decide (0 < s.pnl)) ∧
    (∀ entry exitT : Trade,
      (mkBacktestSignal entry exitT).hold_time = Rat.divInt (exitT.ts - entry.ts) 60000) ∧
    extractTradingSignals [tradeShort50, tradeFlat45] = [shortSignalExample] := by
  refine ⟨?_, ?_, by decide⟩
  · intro trades s hs
    rw [extract_eq_paired] at hs
    obtain ⟨p, hp, hf⟩ := List.mem_filterMap.mp hs
    by_cases hc : (p.1.side = Side.LONG ∨ p.1.side = Side.SHORT) ∧ p.2.side = Side.FLAT
    · rw [if_pos hc] at hf
      have hse := Option.some_inj.mp hf
      subst hse
      exact ⟨hc.1, rfl, rfl⟩
    · rw [if_neg hc] at hf
      exact absurd hf (by simp)
  · intro entry exitT
    show Rat.divInt (exitT.ts - entry.ts) (1000 * 60) = _
    norm_num

attribute [local semireducible] Rat.add Rat.mul Rat.sub in
/-- Witness for C6 at the spec's `SHORT` example. -/
theorem c6_witness :
    shortSignalExample ∈ extractTradingSignals [tradeShort50, tradeFlat45] ∧
      shortSignalExample.pnl = (if shortSignalExample.side = Side.LONG
        then shortSignalExample.exit_price - shortSignalExample.entry_price
        else shortSignalExample.entry_price - shortSignalExample.exit_price) ∧
      shortSignalExample.profitable = decide (0 < shortSignalExample.pnl) ∧
      (mkBacktestSignal tradeShort50 tradeFlat45).hold_time =
        Rat.divInt (tradeFlat45.ts - tradeShort50.ts) 60000 := by
  have h := c6_pnl_convention.1 [tradeShort50, tradeFlat45] shortSignalExample (by decide)
  exact ⟨by decide, h.2.1, h.2.2, c6_pnl_convention.2.1 tradeShort50 tradeFlat45⟩

/-! ## Claim C7 -/

/-- C7 counterexample: concatenation order is observable as claimed only up
to ties — with two signal rows sharing one timestamp, the combining step
(concatenate, then sort by timestamp) yields different example sequences for
the two concatenation orders, because sorting fixes no order between equal
timestamps. -/
theorem c7_concat_order_counter :
    ¬ (combinedExamples [cexSigA] [cexSigB] [] [] =
        combinedExamples [cexSigB] [cexSigA] [] []) := by
  decide

/-- C7 (amended): when the combined signal timestamps are pairwise distinct
and the combined PnL timestamps are pairwise distinct, the examples produced
by the Example Builder after the combining step do not depend on the order in
which the two sources were concatenated — only timestamp order matters. -/
theorem c7_concat_order_amended :
    ∀ (lsig bsig : List SignalRow) (lpnl bpnl : List PnlRow),
      ((lsig ++ bsig).map fun s => s.timestamp).Nodup →
      ((lpnl ++ bpnl).map fun p => p.timestamp).Nodup →
      combinedExamples lsig bsig lpnl bpnl = combinedExamples bsig lsig bpnl lpnl := by
  intro lsig bsig lpnl bpnl h1 h2
  rw [combinedExamples, combinedExamples, sortSignals_append_comm lsig bsig h1,
    sortPnl_append_comm lpnl bpnl h2]

/-- Witness for C7 at two signal rows with distinct timestamps. -/
theorem c7_witness :
    (([w7SigA] ++ [w7SigB]).map fun s : SignalRow => s.timestamp).Nodup ∧
      ((([] : List PnlRow) ++ []).map fun p : PnlRow => p.timestamp).Nodup ∧
      combinedExamples [w7SigA] [w7SigB] [] [] = combinedExamples [w7SigB] [w7SigA] [] [] :=
  ⟨by decide, by decide, c7_concat_order_amended [w7SigA] [w7SigB] [] [] (by decide) (by decide)⟩

/-! ## Claim C8 -/

/-- C8: a signal with a non-empty parsed feature mapping whose attribution
window matches zero PnL rows still yields an example, with labels exactly
`{profitable: False, pnl: 0.0, hold_time: 0, exit_reason: "no_trade"}`. -/
theorem c8_empty_window_defaults :
    ∀ (s : SignalRow) (pnl : List PnlRow) (sigs : List SignalRow),
      parse_features s.features ≠ [] → pnlWindow s pnl = [] → s ∈ sigs →
      (buildExample s pnl).labels =
        { profitable := false, pnl := 0, hold_time := 0, exit_reason := noTradeReason } ∧
      buildExample s pnl ∈ create_training_examples sigs pnl := by
  intro s pnl sigs hf hw hm
  constructor
  · show deriveLabels (pnlWindow s pnl) = _
    rw [hw]
    rfl
  · exact List.mem_filterMap.mpr ⟨s, hm, by rw [if_neg hf]⟩

/-- Witness for C8: a featured signal and a PnL row strictly before its
window. -/
theorem c8_witness :
    parse_features w8Sig.features ≠ [] ∧ pnlWindow w8Sig [w8Pnl] = [] ∧ w8Sig ∈ [w8Sig] ∧
      (buildExample w8Sig [w8Pnl]).labels =
        { profitable := false, pnl := 0, hold_time := 0, exit_reason := noTradeReason } ∧
      buildExample w8Sig [w8Pnl] ∈ create_training_examples [w8Sig] [w8Pnl] := by
  have h := c8_empty_window_defaults w8Sig [w8Pnl] [w8Sig] (by decide) (by decide) (by decide)
  exact ⟨by decide, by decide, by decide, h.1, h.2⟩

/-! ## Claim C9 -/

theorem countP_format_sum :
    ∀ exs : List TrainingExample,
      (∀ e ∈ exs, strContains needleTrue e.labels.exit_reason = false ∧
        strContains needleFalse e.labels.exit_reason = false) →
      (format_for_training exs).countP (fun ex => strContains needleTrue ex.output) +
          (format_for_training exs).countP (fun ex => strContains needleFalse ex.output) =
        (format_for_training exs).length := by
  intro exs
  induction exs with
  | nil => intro _; rfl
  | cons e t ih =>
    intro h
    have he := h e (List.mem_cons_self e t)
    have iht := ih fun x hx => h x (List.mem_cons_of_mem e hx)
    have h1x : strContains needleTrue (renderTarget e.labels) = e.labels.profitable :=
      extractTrue_eq e.labels he.1
    have h2x : strContains needleFalse (renderTarget e.labels) = !e.labels.profitable :=
      extractFalse_eq e.labels he.2
    rw [show format_for_training (e :: t) =
      { instruction := renderInstruction e, output := renderTarget e.labels,
        input := emptyStr } :: format_for_training t from rfl]
    rw [List.countP_cons, List.countP_cons, List.length_cons]
    simp only [h1x, h2x]
    cases hp : e.labels.profitable <;> simp <;> omega

attribute [local semireducible] Rat.add Rat.mul Rat.sub in
/-- C9 counterexample: as stated over every list of formatted examples, the
statistics counts need not sum to the total — a formatted example whose
output contains neither `"Profitable: True"` nor `"Profitable: False"` is
counted by neither substring search. -/
theorem c9_stats_counter :
    ¬ ((save_training_data ratHalf [cexFormatted]).2.2.profitable_trades +
        (save_training_data ratHalf [cexFormatted]).2.2.unprofitable_trades =
      (save_training_data ratHalf [cexFormatted]).2.2.total_examples) := by
  decide

/-- C9 (amended): for formatted examples produced by the Prompt Formatter
from examples whose `exit_reason` contains neither profitability literal, the
statistics satisfy `profitable_trades + unprofitable_trades = total_examples`. -/
theorem c9_stats_sum_amended :
    ∀ (f : ℚ) (exs : List TrainingExample),
      (∀ e ∈ exs, strContains needleTrue e.labels.exit_reason = false ∧
        strContains needleFalse e.labels.exit_reason = false) →
      (save_training_data f (format_for_training exs)).2.2.profitable_trades +
          (save_training_data f (format_for_training exs)).2.2.unprofitable_trades =
        (save_training_data f (format_for_training exs)).2.2.total_examples := by
  intro f exs h
  show (format_for_training exs).countP _ + (format_for_training exs).countP _ =
    (format_for_training exs).length
  exact countP_format_sum exs h

attribute [local semireducible] Rat.add Rat.mul Rat.sub in
/-- Witness for C9 at a one-example list with a clean exit reason. -/
theorem c9_witness :
    (∀ e ∈ [w9Example], strContains needleTrue e.labels.exit_reason = false ∧
      strContains needleFalse e.labels.exit_reason = false) ∧
    (save_training_data ratHalf (format_for_training [w9Example])).2.2.profitable_trades +
        (save_training_data ratHalf (format_for_training [w9Example])).2.2.unprofitable_trades =
      (save_training_data ratHalf (format_for_training [w9Example])).2.2.total_examples :=
  ⟨by decide, c9_stats_sum_amended ratHalf [w9Example] (by decide)⟩

/-! ## Claim C10 -/

/-- C10: the Evaluator's correctness check depends only on the presence of
`"Profitable: True"` in each argument — it returns `True` iff the substring
test agrees on prediction and expected output; in particular a prediction
containing neither profitability literal is scored correct whenever the
expected output does not contain `"Profitable: True"`. -/
theorem c10_substring_scoring :
    ∀ p e : String,
      (is_prediction_correct p e = true ↔ extractProfitable p = extractProfitable e) ∧
      (extractProfitable p = false → strContains needleFalse p = false →
        extractProfitable e = false → is_prediction_correct p e = true) := by
  intro p e
  constructor
  · exact beq_iff_eq
  · intro h1 _ h2
    show (extractProfitable p == extractProfitable e) = true
    rw [h1, h2]
    rfl

/-- Witness for C10: an uninformative prediction scored against an
unprofitable expected output. -/
theorem c10_witness :
    extractProfitable unknownPred = false ∧
      strContains needleFalse unknownPred = false ∧
      extractProfitable (renderTarget c10Labels) = false ∧
      is_prediction_correct unknownPred (renderTarget c10Labels) = true :=
  ⟨by decide, by decide, by decide,
    (c10_substring_scoring unknownPred (renderTarget c10Labels)).2
      (by decide) (by decide) (by decide)⟩

end DriftE3
